import Mathlib

/-!
Verification development for the point-in-time membership reconstruction
engine and the backfill orchestration of the stock_dashboard repository.

Dates are modelled as natural numbers counting days since 1970-01-01
(a Thursday), so Python's `date.weekday()` (Monday = 0) is `(d + 3) % 7`.
Concrete dates used below: 2020-01-01 = 18262 (a Wednesday),
2020-01-02 = 18263 (a Thursday), 2020-01-06 = 18266.

Python iterates `daily_tickers` as a hash set; the embedding enumerates
the same set in a canonical first-occurrence order (`dedupFirst` over the
base-snapshot tickers followed by the ledger tickers), which produces
exactly one record per member ticker, as the set iteration does.
-/

/-- Ledger actions, from the `action` column values `'add'` / `'remove'`
written by `create_manual_membership_changes` and the Wikipedia parser
(`sp500_membership_tracker.py`). -/
inductive MembershipAction where
  | add
  | remove
deriving DecidableEq, Repr

/-- A membership-change event, one row of the `sp500_membership_changes`
table: `{effective_date, action, ticker, description}`
(`sp500_membership_tracker.py`, `create_manual_membership_changes`). -/
structure MembershipChangeEvent where
  effective_date : Nat
  action : MembershipAction
  ticker : String
  description : String
deriving DecidableEq, Repr

/-- One row of the daily membership output of `generate_daily_membership`:
`{'date', 'ticker', 'in_dt', 'out_dt', 'is_member'}`; `out_dt = none`
models `pd.NaT`. -/
structure DailyMembershipRecord where
  date : Nat
  ticker : String
  in_dt : Nat
  out_dt : Option Nat
  is_member : Bool
deriving DecidableEq, Repr

/-- The base constituent snapshot of §3 of the design: a reference date and
a ticker population.  The code's `get_sp500_for_year` only yields the ticker
column (`base_tickers`); the reference date is carried here so that claims
comparing emitted fields against it can be stated. -/
structure BaseConstituentSnapshot where
  reference_date : Nat
  tickers : List String
deriving DecidableEq, Repr

/-- Python's `date.weekday()` under the day-number encoding
(Monday = 0, ..., Sunday = 6). -/
def pyWeekday (d : Nat) : Nat := (d + 3) % 7

/-- The `current_date.weekday() < 5` weekday test used by
`generate_daily_membership` and the backfill loops. -/
def isTradingDay (d : Nat) : Bool := pyWeekday d < 5

/-- The `date_list` loop of `generate_daily_membership` (and of
`run_point_in_time_backfill` / `generate_date_list` with weekends
excluded): every day of `[s, e]`, weekdays only. -/
def tradingDates (s e : Nat) : List Nat :=
  ((List.range (e + 1 - s)).map (fun i => s + i)).filter isTradingDay

/-- `relevant_changes = changes_df[changes_df['effective_date'] <= target_date]`. -/
def relevantChanges (changes : List MembershipChangeEvent) (d : Nat) :
    List MembershipChangeEvent :=
  changes.filter (fun c => decide (c.effective_date ≤ d))

/-- `added_tickers`: tickers of the `action == 'add'` rows of `relevant`. -/
def addedTickers (rel : List MembershipChangeEvent) : List String :=
  (rel.filter (fun c => decide (c.action = MembershipAction.add))).map (fun c => c.ticker)

/-- `removed_tickers`: tickers of the `action == 'remove'` rows of `relevant`. -/
def removedTickers (rel : List MembershipChangeEvent) : List String :=
  (rel.filter (fun c => decide (c.action = MembershipAction.remove))).map (fun c => c.ticker)

/-- `ticker_adds['effective_date'].min()` over the rows of `rel` for one
ticker; `none` when the ticker has no add row. -/
def minAddDate (rel : List MembershipChangeEvent) (t : String) : Option Nat :=
  ((rel.filter (fun c => decide (c.ticker = t ∧ c.action = MembershipAction.add))).map
    (fun c => c.effective_date)).min?

/-- `ticker_removes['effective_date'].min()` over the rows of `rel` for one
ticker; `none` when the ticker has no remove row. -/
def minRemoveDate (rel : List MembershipChangeEvent) (t : String) : Option Nat :=
  ((rel.filter (fun c => decide (c.ticker = t ∧ c.action = MembershipAction.remove))).map
    (fun c => c.effective_date)).min?

/-- The `valid_added_tickers` loop: for each added ticker, re-check that its
earliest add in `relevant` is `<= target_date` (the check is redundant but
is reproduced from the source). -/
def validAddedTickers (rel : List MembershipChangeEvent) (d : Nat) : List String :=
  (addedTickers rel).filter (fun t =>
    match minAddDate rel t with
    | some m => decide (m ≤ d)
    | none => false)

/-- Membership in `daily_tickers = (base_tickers | valid_added_tickers) -
removed_tickers` for one date. -/
def isActive (changes : List MembershipChangeEvent) (base : List String)
    (d : Nat) (t : String) : Bool :=
  let rel := relevantChanges changes d
  (base.contains t || (validAddedTickers rel d).contains t)
    && !((removedTickers rel).contains t)

/-- First-occurrence deduplication; the canonical enumeration order chosen
for the Python set `daily_tickers`. -/
def dedupFirst : List String → List String
  | [] => []
  | a :: l => a :: (dedupFirst l).filter (fun b => decide (b ≠ a))

/-- The ticker universe the active set is drawn from: the base snapshot
population together with every ticker appearing in the ledger. -/
def tickerUniverse (changes : List MembershipChangeEvent) (base : List String) :
    List String :=
  dedupFirst (base ++ changes.map (fun c => c.ticker))

/-- The tickers of `daily_tickers` for one date, enumerated canonically. -/
def dailyTickers (changes : List MembershipChangeEvent) (base : List String)
    (d : Nat) : List String :=
  (tickerUniverse changes base).filter (isActive changes base d)

/-- The record appended to `daily_membership_list` for one `(ticker, date)`:
`in_dt` is the earliest relevant add (else `target_date`), `out_dt` the
earliest relevant remove (else `pd.NaT`), `is_member` is literally `True`. -/
def mkDailyRecord (changes : List MembershipChangeEvent) (d : Nat) (t : String) :
    DailyMembershipRecord :=
  let rel := relevantChanges changes d
  { date := d
    ticker := t
    in_dt := (minAddDate rel t).getD d
    out_dt := minRemoveDate rel t
    is_member := true }

/-- The rows emitted for one trading day. -/
def dailyRecords (changes : List MembershipChangeEvent) (base : List String)
    (d : Nat) : List DailyMembershipRecord :=
  (dailyTickers changes base d).map (mkDailyRecord changes d)

/-- The per-date loop of `generate_daily_membership`, over an arbitrary
date list. -/
def recordsForDates (changes : List MembershipChangeEvent) (base : List String) :
    List Nat → List DailyMembershipRecord
  | [] => []
  | d :: ds => dailyRecords changes base d ++ recordsForDates changes base ds

/-- `generate_daily_membership(start_date, end_date)` given the loaded
ledger rows and the base population: an empty ledger short-circuits to an
empty result (`if changes_df.empty: return pd.DataFrame()`); otherwise the
per-trading-day loop runs. -/
def generateDailyMembership (changes : List MembershipChangeEvent)
    (base : List String) (s e : Nat) : List DailyMembershipRecord :=
  if changes.isEmpty then []
  else recordsForDates changes base (tradingDates s e)

/-- Failure modes of the reconstruction per the design's error taxonomy:
the ledger store being unreadable (`SourceUnavailable`) and the base
snapshot being unobtainable (`MissingBaseline`; in the source both are
plain `Exception`s that propagate out of `generate_daily_membership`). -/
inductive TrackerError where
  | sourceUnavailable
  | missingBaseline
deriving DecidableEq, Repr

/-- `generate_daily_membership` with its two fallible collaborators made
explicit, in source order: the ledger is loaded first, the empty-ledger
check runs before the base snapshot is ever requested, and an exception
from `get_sp500_for_year` propagates (the outer `except` logs and
re-raises). -/
def generateDailyMembershipE (ledgerResult : Except TrackerError (List MembershipChangeEvent))
    (snapshotResult : Except TrackerError (List String)) (s e : Nat) :
    Except TrackerError (List DailyMembershipRecord) :=
  match ledgerResult with
  | .error er => .error er
  | .ok changes =>
    if changes.isEmpty then .ok []
    else
      match snapshotResult with
      | .error er => .error er
      | .ok base => .ok (recordsForDates changes base (tradingDates s e))

/-- Outcome of one `yf.Ticker(t).history(...)` fetch inside
`_collect_batch_price_data` (`bronze_layer_point_in_time.py`): a non-empty
frame, an empty frame, or a raised exception.  The embedding abstracts a
successful frame by the ticker it belongs to. -/
inductive FetchOutcome where
  | ok
  | empty
  | err
deriving DecidableEq, Repr

/-- `_collect_batch_price_data(batch_tickers, target_date)`: walk the batch
in order; a non-empty history appends the frame and the ticker to the
successful list, an empty history or an exception appends the ticker to the
failed list. -/
def collectBatchPriceData (fetch : String → FetchOutcome) :
    List String → List String × List String × List String
  | [] => ([], [], [])
  | t :: ts =>
    let rest := collectBatchPriceData fetch ts
    match fetch t with
    | .ok => (t :: rest.1, t :: rest.2.1, rest.2.2)
    | .empty => (rest.1, rest.2.1, t :: rest.2.2)
    | .err => (rest.1, rest.2.1, t :: rest.2.2)

/-- `get_price_data_for_date(tickers, target_date, batch_size)`: slice the
ticker list into `batch_size` chunks (`range(0, len(tickers), batch_size)`)
and concatenate each batch's data / successful / failed lists.  Python
raises `ValueError` on `batch_size = 0`; the embedding returns empty lists
there, and every claim about this function assumes a positive batch size. -/
def getPriceDataForDate (fetch : String → FetchOutcome) (tickers : List String)
    (batchSize : Nat) : List String × List String × List String :=
  if h : tickers = [] ∨ batchSize = 0 then ([], [], [])
  else
    let first := collectBatchPriceData fetch (tickers.take batchSize)
    let rest := getPriceDataForDate fetch (tickers.drop batchSize) batchSize
    (first.1 ++ rest.1, first.2.1 ++ rest.2.1, first.2.2 ++ rest.2.2)
termination_by tickers.length
decreasing_by
  rcases not_or.mp h with ⟨h1, h2⟩
  simp only [List.length_drop]
  exact Nat.sub_lt (List.length_pos.mpr h1) (Nat.pos_of_ne_zero h2)

/-- `success_rate` of `run_point_in_time_collection`: the float
`len(successful) / (len(successful) + len(failed))` when any ticker was
classified, else `0`, modelled over the rationals. -/
def successRate (s f : Nat) : ℚ :=
  if 0 < s + f then (s : ℚ) / ((s : ℚ) + (f : ℚ)) else 0

/-- `is_success = success_rate >= 0.9`. -/
def isSuccessfulDate (s f : Nat) : Bool :=
  decide ((9 : ℚ) / 10 ≤ successRate s f)

/-- The per-date success decision of `run_point_in_time_collection`: an
empty constituent list returns `False` at once; otherwise the date is
successful when the price-collection success rate meets the 90% threshold.
Storage writes and dividend collection do not influence the returned
boolean and are omitted. -/
def runPointInTimeCollection (fetch : String → FetchOutcome)
    (tickers : List String) (batchSize : Nat) : Bool :=
  if tickers.isEmpty then false
  else
    isSuccessfulDate (getPriceDataForDate fetch tickers batchSize).2.1.length
      (getPriceDataForDate fetch tickers batchSize).2.2.length

/-- The layer-sequencing decision of `run_full_backfill`
(`backfill_orchestrator.py`), parameterised by the boolean outcomes of the
membership-setup, Bronze, Silver and Gold steps: membership setup failing
(when Point-in-Time mode with setup is on) returns `False`; a Bronze or a
Silver failure returns `False` before the next layer; with `skip_gold` the
gold flag is forced `True`; the final result is
`bronze_success and silver_success and gold_success`. -/
def runFullBackfill (membershipOk bronzeOk silverOk goldOk : Bool)
    (skipGold usePit setupMembership : Bool) : Bool :=
  if usePit && setupMembership && !membershipOk then false
  else if !bronzeOk then false
  else if !silverOk then false
  else
    let goldSuccess := if skipGold then true else goldOk
    bronzeOk && silverOk && goldSuccess

/-- `run_gold_backfill`: its body only logs (the Gold layer is a BigQuery
view) and returns `True`; the `except` branch is unreachable. -/
def runGoldBackfill : Bool := true

/-- A provider oracle whose every fetch yields a non-empty frame. -/
def fetchAllOk : String → FetchOutcome := fun _ => .ok

/-- A provider oracle that succeeds only for ticker `"A"`. -/
def fetchOnlyA : String → FetchOutcome := fun t => if t = "A" then .ok else .err

/-! ### Helper lemmas about the reconstruction -/

theorem mem_dedupFirst {t : String} : ∀ {l : List String}, t ∈ dedupFirst l ↔ t ∈ l
  | [] => by simp [dedupFirst]
  | a :: l => by
    rw [dedupFirst]
    by_cases h : t = a
    · subst h; simp
    · simp only [List.mem_cons, h, false_or]
      rw [List.mem_filter, mem_dedupFirst]
      simp [h]

theorem dedupFirst_append_not_mem {t' : String} :
    ∀ {l : List String}, t' ∉ l → dedupFirst (l ++ [t']) = dedupFirst l ++ [t']
  | [], _ => by simp [dedupFirst]
  | a :: l, h => by
    have ha : t' ≠ a := fun he => h (by simp [he])
    have hl : t' ∉ l := fun he => h (by simp [he])
    rw [List.cons_append, dedupFirst, dedupFirst, List.cons_append]
    congr 1
    rw [dedupFirst_append_not_mem hl, List.filter_append]
    have : List.filter (fun b => decide (b ≠ a)) [t'] = [t'] := by
      simp [List.filter, ha]
    rw [this]

theorem dedupFirst_append_mem {t' : String} :
    ∀ {l : List String}, t' ∈ l → dedupFirst (l ++ [t']) = dedupFirst l
  | [], h => by simp at h
  | a :: l, h => by
    rw [List.cons_append, dedupFirst, dedupFirst]
    by_cases ha : t' = a
    · subst ha
      congr 1
      by_cases hl : t' ∈ l
      · rw [dedupFirst_append_mem hl]
      · rw [dedupFirst_append_not_mem hl, List.filter_append]
        simp [List.filter]
    · have hl : t' ∈ l := by
        rcases List.mem_cons.mp h with h1 | h1
        · exact absurd h1 ha
        · exact h1
      congr 1
      rw [dedupFirst_append_mem hl]

/-- An event dated strictly after `d` is invisible to the per-date filter. -/
theorem relevantChanges_append_later {changes : List MembershipChangeEvent}
    {ev : MembershipChangeEvent} {d : Nat} (h : d < ev.effective_date) :
    relevantChanges (changes ++ [ev]) d = relevantChanges changes d := by
  unfold relevantChanges
  rw [List.filter_append]
  have : List.filter (fun c => decide (c.effective_date ≤ d)) [ev] = [] := by
    simp [List.filter, Nat.not_le.mpr h]
  rw [this, List.append_nil]

theorem isActive_append_later {changes : List MembershipChangeEvent}
    {ev : MembershipChangeEvent} {base : List String} {d : Nat}
    (h : d < ev.effective_date) :
    isActive (changes ++ [ev]) base d = isActive changes base d := by
  funext t
  unfold isActive
  rw [relevantChanges_append_later h]

theorem mkDailyRecord_append_later {changes : List MembershipChangeEvent}
    {ev : MembershipChangeEvent} {d : Nat} (h : d < ev.effective_date) :
    mkDailyRecord (changes ++ [ev]) d = mkDailyRecord changes d := by
  funext t
  unfold mkDailyRecord
  rw [relevantChanges_append_later h]

/-- A ticker outside the base snapshot and outside the ledger is never
active. -/
theorem isActive_eq_false_of_not_mem {changes : List MembershipChangeEvent}
    {base : List String} {d : Nat} {t : String}
    (hb : t ∉ base) (hc : t ∉ changes.map (fun c => c.ticker)) :
    isActive changes base d t = false := by
  have h1 : base.contains t = false := by
    show List.elem t base = false
    rw [List.elem_eq_mem]
    simp [hb]
  have h2 : (validAddedTickers (relevantChanges changes d) d).contains t = false := by
    show List.elem t (validAddedTickers (relevantChanges changes d) d) = false
    rw [List.elem_eq_mem]
    simp only [decide_eq_false_iff_not]
    intro hmem
    apply hc
    unfold validAddedTickers addedTickers at hmem
    have := List.mem_filter.mp hmem
    rcases List.mem_map.mp this.1 with ⟨c, hcmem, hct⟩
    have := List.mem_filter.mp hcmem
    have hrel := List.mem_filter.mp this.1
    exact List.mem_map.mpr ⟨c, hrel.1, hct⟩
  show ((base.contains t || (validAddedTickers (relevantChanges changes d) d).contains t)
    && !((removedTickers (relevantChanges changes d)).contains t)) = false
  rw [h1, h2]
  simp

theorem dailyTickers_append_later {changes : List MembershipChangeEvent}
    {ev : MembershipChangeEvent} {base : List String} {d : Nat}
    (h : d < ev.effective_date) :
    dailyTickers (changes ++ [ev]) base d = dailyTickers changes base d := by
  unfold dailyTickers
  rw [isActive_append_later h]
  unfold tickerUniverse
  rw [List.map_append, List.map_singleton, ← List.append_assoc]
  by_cases hmem : ev.ticker ∈ base ++ changes.map (fun c => c.ticker)
  · rw [dedupFirst_append_mem hmem]
  · rw [dedupFirst_append_not_mem hmem, List.filter_append]
    have hb : ev.ticker ∉ base := fun hx => hmem (List.mem_append.mpr (Or.inl hx))
    have hc : ev.ticker ∉ changes.map (fun c => c.ticker) :=
      fun hx => hmem (List.mem_append.mpr (Or.inr hx))
    have : List.filter (isActive changes base d) [ev.ticker] = [] := by
      simp [List.filter, isActive_eq_false_of_not_mem hb hc]
    rw [this, List.append_nil]

theorem dailyRecords_append_later {changes : List MembershipChangeEvent}
    {ev : MembershipChangeEvent} {base : List String} {d : Nat}
    (h : d < ev.effective_date) :
    dailyRecords (changes ++ [ev]) base d = dailyRecords changes base d := by
  unfold dailyRecords
  rw [dailyTickers_append_later h, mkDailyRecord_append_later h]

/-- Structure of the emitted rows: each comes from one date of the list and
one active ticker of that date. -/
theorem mem_recordsForDates {changes : List MembershipChangeEvent}
    {base : List String} {r : DailyMembershipRecord} :
    ∀ {ds : List Nat}, r ∈ recordsForDates changes base ds ↔
      ∃ d ∈ ds, ∃ t ∈ dailyTickers changes base d, r = mkDailyRecord changes d t
  | [] => by simp [recordsForDates]
  | d' :: ds => by
    have hih := @mem_recordsForDates changes base r ds
    simp only [recordsForDates, List.mem_append, hih,
      dailyRecords, List.mem_map, List.mem_cons]
    constructor
    · rintro (⟨t, ht, hr⟩ | ⟨d, hd, t, ht, hr⟩)
      · exact ⟨d', Or.inl rfl, t, ht, hr.symm⟩
      · exact ⟨d, Or.inr hd, t, ht, hr⟩
    · rintro ⟨d, hd | hd, t, ht, hr⟩
      · exact Or.inl ⟨t, by rw [hd] at ht; exact ht, by rw [hd] at hr; exact hr.symm⟩
      · exact Or.inr ⟨d, hd, t, ht, hr⟩

theorem date_of_mem_dailyRecords {changes : List MembershipChangeEvent}
    {base : List String} {d : Nat} {r : DailyMembershipRecord}
    (h : r ∈ dailyRecords changes base d) : r.date = d := by
  rcases List.mem_map.mp h with ⟨t, _, hr⟩
  rw [← hr]
  rfl

/-- Every emitted row's ticker is active on the row's date. -/
theorem active_of_mem_recordsForDates {changes : List MembershipChangeEvent}
    {base : List String} {ds : List Nat} {r : DailyMembershipRecord}
    (h : r ∈ recordsForDates changes base ds) :
    isActive changes base r.date r.ticker = true := by
  rcases mem_recordsForDates.mp h with ⟨d, _, t, ht, hr⟩
  have hactive := (List.mem_filter.mp ht).2
  have hd : r.date = d := by rw [hr]; rfl
  have htk : r.ticker = t := by rw [hr]; rfl
  rw [hd, htk]
  exact hactive

/-- An active ticker has no relevant remove row, so its `out_dt` is `NaT`. -/
theorem minRemoveDate_eq_none_of_active {changes : List MembershipChangeEvent}
    {base : List String} {d : Nat} {t : String}
    (h : isActive changes base d t = true) :
    minRemoveDate (relevantChanges changes d) t = none := by
  have hnot : (removedTickers (relevantChanges changes d)).contains t = false := by
    have := h
    unfold isActive at this
    simp only [Bool.and_eq_true, Bool.not_eq_true'] at this
    exact this.2
  have hmem : t ∉ removedTickers (relevantChanges changes d) := by
    intro hx
    rw [show (removedTickers (relevantChanges changes d)).contains t
        = List.elem t (removedTickers (relevantChanges changes d)) from rfl,
      List.elem_eq_mem] at hnot
    simp [hx] at hnot
  unfold minRemoveDate
  have hfil : (relevantChanges changes d).filter
      (fun c => decide (c.ticker = t ∧ c.action = MembershipAction.remove)) = [] := by
    rw [List.filter_eq_nil_iff]
    intro c hc
    simp only [decide_eq_true_eq, not_and]
    intro hct hca
    apply hmem
    unfold removedTickers
    exact List.mem_map.mpr ⟨c, List.mem_filter.mpr ⟨hc, by simp [hca]⟩, hct⟩
  rw [hfil]
  rfl

theorem filter_date_dailyRecords_ne {changes : List MembershipChangeEvent}
    {base : List String} {d d' : Nat} (h : d' ≠ d) :
    (dailyRecords changes base d').filter (fun r => r.date == d) = [] := by
  rw [List.filter_eq_nil_iff]
  intro r hr
  have := date_of_mem_dailyRecords hr
  simp [this, h]

/-- Restricting the emitted rows to dates before a late event's effective
date is unaffected by appending that event to the ledger. -/
theorem recordsForDates_filter_congr {changes : List MembershipChangeEvent}
    {ev : MembershipChangeEvent} {base : List String} {d : Nat}
    (h : d < ev.effective_date) :
    ∀ ds : List Nat,
      (recordsForDates (changes ++ [ev]) base ds).filter (fun r => r.date == d)
        = (recordsForDates changes base ds).filter (fun r => r.date == d)
  | [] => rfl
  | d' :: ds => by
    simp only [recordsForDates, List.filter_append]
    rw [recordsForDates_filter_congr h ds]
    by_cases hd : d' = d
    · subst hd
      rw [dailyRecords_append_later h]
    · rw [filter_date_dailyRecords_ne hd, filter_date_dailyRecords_ne hd]

/-! ### Claim theorems -/

/-- C1 (counterexample): the monotonic-visibility claim quantifies over
*every* ledger, but the empty ledger falsifies it: over the single trading
day 18263 (2020-01-02), the empty ledger reconstructs to *no* records
(early `changes_df.empty` return), while appending one event effective
18266 (> 18263) makes the same day reconstruct the base-snapshot member
AAPL — so `active(d)` for `d` before the new event's effective date
changes from ∅ to {AAPL}. -/
theorem c1_monotonic_visibility_counterexample :
    generateDailyMembership [] ["AAPL"] 18263 18263 = [] ∧
    (generateDailyMembership [⟨18266, .add, "X", ""⟩] ["AAPL"] 18263 18263).map
      (fun r => r.ticker) = ["AAPL"] ∧
    (18263 : Nat) < 18266 ∧ tradingDates 18263 18263 = [18263] := by
  refine ⟨rfl, ?_, by norm_num, ?_⟩ <;> decide

/-- C1 (amended): for every *non-empty* ledger, appending an event with
`effective_date = e` changes neither the active set `active(d)` nor the
emitted records (hence the per-ticker `in_dt` / `out_dt` values) for any
date `d < e`. -/
theorem c1_monotonic_visibility_nonempty_ledger
    (changes : List MembershipChangeEvent) (ev : MembershipChangeEvent)
    (base : List String) (s e d : Nat)
    (hne : changes ≠ []) (hd : d < ev.effective_date) :
    (∀ t, isActive (changes ++ [ev]) base d t = isActive changes base d t) ∧
    (generateDailyMembership (changes ++ [ev]) base s e).filter (fun r => r.date == d)
      = (generateDailyMembership changes base s e).filter (fun r => r.date == d) := by
  constructor
  · intro t
    rw [isActive_append_later hd]
  · unfold generateDailyMembership
    have h1 : (changes ++ [ev]).isEmpty = false := by
      cases changes <;> rfl
    have h2 : changes.isEmpty = false := by
      cases changes with
      | nil => exact absurd rfl hne
      | cons a l => rfl
    rw [h1, h2]
    simp only [Bool.false_eq_true, if_false]
    exact recordsForDates_filter_congr hd _

/-- C1 (witness for the amended theorem): instantiated on a one-event
ledger, a later remove event and the single trading day 18263. -/
theorem c1_monotonic_visibility_witness :
    (generateDailyMembership ([⟨18262, .add, "X", ""⟩] ++ [⟨18266, .remove, "Y", ""⟩])
        ["AAPL"] 18263 18263).filter (fun r => r.date == 18263)
      = (generateDailyMembership [⟨18262, .add, "X", ""⟩] ["AAPL"] 18263 18263).filter
          (fun r => r.date == 18263) :=
  (c1_monotonic_visibility_nonempty_ledger [⟨18262, .add, "X", ""⟩]
    ⟨18266, .remove, "Y", ""⟩ ["AAPL"] 18263 18263 18263
    (by decide) (by decide)).2

/-- C2: same-day tie-break per §4.2 — if the ledger holds both an Add and a
Remove for ticker `T` with the same effective date `d` (and no other events
for `T` on or before `d`), day `d`'s active set excludes `T` and no emitted
record for date `d` carries ticker `T`: Remove wins. -/
theorem c2_same_day_remove_wins
    (changes : List MembershipChangeEvent) (base : List String)
    (T dA dR : String) (d s e : Nat)
    (hA : (⟨d, .add, T, dA⟩ : MembershipChangeEvent) ∈ changes)
    (hR : (⟨d, .remove, T, dR⟩ : MembershipChangeEvent) ∈ changes)
    (honly : ∀ c ∈ changes, c.ticker = T → c.effective_date ≤ d →
      c = ⟨d, .add, T, dA⟩ ∨ c = ⟨d, .remove, T, dR⟩) :
    isActive changes base d T = false ∧
    ∀ r ∈ generateDailyMembership changes base s e, r.date = d → r.ticker ≠ T := by
  have hrel : (⟨d, .remove, T, dR⟩ : MembershipChangeEvent) ∈ relevantChanges changes d :=
    List.mem_filter.mpr ⟨hR, by simp⟩
  have hmem : T ∈ removedTickers (relevantChanges changes d) :=
    List.mem_map.mpr ⟨⟨d, .remove, T, dR⟩, List.mem_filter.mpr ⟨hrel, by simp⟩, rfl⟩
  have hcont : (removedTickers (relevantChanges changes d)).contains T = true := by
    show List.elem T (removedTickers (relevantChanges changes d)) = true
    rw [List.elem_eq_mem]
    simp [hmem]
  have hfalse : isActive changes base d T = false := by
    show ((base.contains T || (validAddedTickers (relevantChanges changes d) d).contains T)
      && !((removedTickers (relevantChanges changes d)).contains T)) = false
    rw [hcont]
    simp
  refine ⟨hfalse, ?_⟩
  intro r hr hdate hT
  unfold generateDailyMembership at hr
  by_cases hemp : changes.isEmpty = true
  · rw [if_pos hemp] at hr
    simp at hr
  · rw [if_neg hemp] at hr
    have hact := active_of_mem_recordsForDates hr
    rw [hdate, hT, hfalse] at hact
    exact absurd hact (by simp)

/-- C2 (witness): a two-event same-day Add/Remove ledger for ticker `T`. -/
theorem c2_same_day_remove_wins_witness :
    isActive [⟨18263, .add, "T", "a"⟩, ⟨18263, .remove, "T", "r"⟩] ["A"] 18263 "T" = false :=
  (c2_same_day_remove_wins [⟨18263, .add, "T", "a"⟩, ⟨18263, .remove, "T", "r"⟩]
    ["A"] "T" "a" "r" 18263 18263 18263 (by decide) (by decide) (by decide)).1

/-- C3 (counterexample): §8 claims Add wins the same-day tie, i.e.
`T ∈ active(2020-01-02)` for the ledger `[Remove(T, 2020-01-02),
Add(T, 2020-01-02)]`; the code computes
`(base | added) - removed`, so `T` is excluded on 2020-01-02 (= 18263). -/
theorem c3_same_day_add_wins_counterexample :
    isActive [⟨18263, .remove, "T", ""⟩, ⟨18263, .add, "T", ""⟩] ["A"] 18263 "T"
      = false := by
  decide

/-- C3 (amended): for the ledger `[Remove(T, 2020-01-02), Add(T, 2020-01-02)]`
and a base snapshot not containing `T`, Remove wins the shared effective
date (consistently with §4.2): `T ∉ active(2020-01-02)`, and also
`T ∉ active(2020-01-01)`. -/
theorem c3_same_day_remove_wins_both_days :
    isActive [⟨18263, .remove, "T", ""⟩, ⟨18263, .add, "T", ""⟩] ["A"] 18263 "T" = false ∧
    isActive [⟨18263, .remove, "T", ""⟩, ⟨18263, .add, "T", ""⟩] ["A"] 18262 "T" = false := by
  decide

/-- C4 (counterexample): with a readable but empty ledger, a non-empty base
snapshot and a range containing the trading day 18263, the reconstruction
returns *no* records instead of the snapshot-only membership the claim
requires. -/
theorem c4_empty_ledger_counterexample :
    tradingDates 18263 18263 = [18263] ∧
    generateDailyMembership [] ["AAPL"] 18263 18263 = [] := by
  constructor <;> decide

/-- C4 (amended): when the ledger store is readable but holds zero events,
`generate_daily_membership` returns an empty record set — the base snapshot
is not even fetched — rather than snapshot-only membership. -/
theorem c4_empty_ledger_returns_no_records
    (snapshotResult : Except TrackerError (List String)) (s e : Nat) :
    generateDailyMembershipE (.ok []) snapshotResult s e = .ok [] := rfl

/-- C5 (counterexample): ticker `T` is active on trading day 18263 solely
through the base snapshot (reference date 18262, no Add event for `T`), yet
its emitted record carries `in_dt = 18263` — the target date — not the
snapshot's reference date 18262. -/
theorem c5_in_date_counterexample :
    ((generateDailyMembership [⟨18262, .add, "X", ""⟩]
        (BaseConstituentSnapshot.mk 18262 ["T"]).tickers 18263 18263).filter
      (fun r => r.ticker == "T")).map (fun r => r.in_dt) = [18263] ∧
    ([⟨18262, .add, "X", ""⟩] : List MembershipChangeEvent).filter
      (fun c => decide (c.ticker = "T" ∧ c.action = MembershipAction.add)) = [] ∧
    (18263 : Nat) ≠ (BaseConstituentSnapshot.mk 18262 ["T"]).reference_date := by
  refine ⟨?_, ?_, by norm_num⟩ <;> decide

/-- C5 (amended): a ticker that is active with no Add event effective on or
before the record's date gets `in_dt` equal to the record's own date (the
trading day itself), exactly as §4.2 step 5 describes. -/
theorem c5_in_date_defaults_to_target_date
    (changes : List MembershipChangeEvent) (base : List String) (s e : Nat)
    (r : DailyMembershipRecord)
    (hr : r ∈ generateDailyMembership changes base s e)
    (hnoadd : changes.filter (fun c => decide (c.ticker = r.ticker ∧
      c.action = MembershipAction.add ∧ c.effective_date ≤ r.date)) = []) :
    r.in_dt = r.date := by
  unfold generateDailyMembership at hr
  by_cases hemp : changes.isEmpty = true
  · rw [if_pos hemp] at hr
    simp at hr
  · rw [if_neg hemp] at hr
    rcases mem_recordsForDates.mp hr with ⟨d, _, t, _, hreq⟩
    have hdate : r.date = d := by rw [hreq]; rfl
    have hticker : r.ticker = t := by rw [hreq]; rfl
    have hnone : minAddDate (relevantChanges changes d) t = none := by
      unfold minAddDate
      have hfil : (relevantChanges changes d).filter
          (fun c => decide (c.ticker = t ∧ c.action = MembershipAction.add)) = [] := by
        rw [List.filter_eq_nil_iff]
        intro c hc
        simp only [decide_eq_true_eq, not_and]
        intro hct hca
        have hcchanges := (List.mem_filter.mp hc).1
        have hcle : c.effective_date ≤ d :=
          of_decide_eq_true (List.mem_filter.mp hc).2
        have : c ∈ changes.filter (fun c => decide (c.ticker = r.ticker ∧
            c.action = MembershipAction.add ∧ c.effective_date ≤ r.date)) := by
          refine List.mem_filter.mpr ⟨hcchanges, ?_⟩
          rw [hdate, hticker]
          simp [hct, hca, hcle]
        rw [hnoadd] at this
        simp at this
      rw [hfil]
      rfl
    rw [hreq]
    show (minAddDate (relevantChanges changes d) t).getD d = d
    rw [hnone]
    rfl

/-- C5 (witness for the amended theorem): the `T` record of the
counterexample scenario. -/
theorem c5_in_date_witness :
    (⟨18263, "T", 18263, none, true⟩ : DailyMembershipRecord).in_dt
      = (⟨18263, "T", 18263, none, true⟩ : DailyMembershipRecord).date :=
  c5_in_date_defaults_to_target_date [⟨18262, .add, "X", ""⟩] ["T"] 18263 18263
    ⟨18263, "T", 18263, none, true⟩ (by decide) (by decide)

/-- C8 (counterexample): with a readable but empty ledger, the base
snapshot being unobtainable does *not* fail the reconstruction: the
empty-ledger early return fires before the snapshot is ever requested and
the call succeeds with zero records instead of raising MissingBaseline. -/
theorem c8_missing_baseline_counterexample :
    generateDailyMembershipE (.ok []) (.error .missingBaseline) 18263 18263
      = .ok [] := rfl

/-- C8 (amended): for a *non-empty* ledger, an unobtainable base snapshot
makes the reconstruction fail with the propagated error and produce no
records; it never proceeds with an empty base population. -/
theorem c8_missing_baseline_nonempty_ledger
    (changes : List MembershipChangeEvent) (er : TrackerError) (s e : Nat)
    (hne : changes ≠ []) :
    generateDailyMembershipE (.ok changes) (.error er) s e = .error er := by
  cases changes with
  | nil => exact absurd rfl hne
  | cons a l => rfl

/-- C8 (witness for the amended theorem): one-event ledger, failing
snapshot source. -/
theorem c8_missing_baseline_witness :
    generateDailyMembershipE (.ok [⟨18262, .add, "X", ""⟩])
      (.error .missingBaseline) 18263 18263 = .error .missingBaseline :=
  c8_missing_baseline_nonempty_ledger [⟨18262, .add, "X", ""⟩]
    .missingBaseline 18263 18263 (by decide)

/-- C9: every record emitted by the reconstruction has `is_member = True`
and `out_dt` absent (`NaT`): a row is only produced for an active ticker,
and an active ticker has no Remove event effective on or before the row's
date. -/
theorem c9_records_member_no_out_date
    (changes : List MembershipChangeEvent) (base : List String) (s e : Nat) :
    ∀ r ∈ generateDailyMembership changes base s e,
      r.is_member = true ∧ r.out_dt = none := by
  intro r hr
  unfold generateDailyMembership at hr
  by_cases hemp : changes.isEmpty = true
  · rw [if_pos hemp] at hr
    simp at hr
  · rw [if_neg hemp] at hr
    rcases mem_recordsForDates.mp hr with ⟨d, _, t, ht, hreq⟩
    have hactive := (List.mem_filter.mp ht).2
    rw [hreq]
    refine ⟨rfl, ?_⟩
    show minRemoveDate (relevantChanges changes d) t = none
    exact minRemoveDate_eq_none_of_active hactive

/-- C9 (witness): the single AAPL record of a one-day reconstruction. -/
theorem c9_records_member_no_out_date_witness :
    (⟨18263, "AAPL", 18263, none, true⟩ : DailyMembershipRecord).is_member = true ∧
    (⟨18263, "AAPL", 18263, none, true⟩ : DailyMembershipRecord).out_dt = none :=
  c9_records_member_no_out_date [⟨18266, .add, "X", ""⟩] ["AAPL"] 18263 18263
    ⟨18263, "AAPL", 18263, none, true⟩ (by decide)

/-! ### Helper lemmas about the per-date collector -/

theorem collectBatchPriceData_parts (fetch : String → FetchOutcome) :
    ∀ l : List String,
      (collectBatchPriceData fetch l).2.1
          = l.filter (fun t => decide (fetch t = FetchOutcome.ok)) ∧
      (collectBatchPriceData fetch l).2.2
          = l.filter (fun t => !decide (fetch t = FetchOutcome.ok))
  | [] => ⟨rfl, rfl⟩
  | t :: ts => by
    have ih := collectBatchPriceData_parts fetch ts
    cases h : fetch t <;>
      simp [collectBatchPriceData, h, List.filter, ih.1, ih.2]

theorem getPriceDataForDate_nil (fetch : String → FetchOutcome) (bs : Nat) :
    getPriceDataForDate fetch [] bs = ([], [], []) := by
  unfold getPriceDataForDate
  simp

theorem getPriceDataForDate_step (fetch : String → FetchOutcome)
    (ts : List String) (bs : Nat) (h1 : ts ≠ []) (h2 : bs ≠ 0) :
    getPriceDataForDate fetch ts bs
      = ((collectBatchPriceData fetch (ts.take bs)).1
            ++ (getPriceDataForDate fetch (ts.drop bs) bs).1,
         (collectBatchPriceData fetch (ts.take bs)).2.1
            ++ (getPriceDataForDate fetch (ts.drop bs) bs).2.1,
         (collectBatchPriceData fetch (ts.take bs)).2.2
            ++ (getPriceDataForDate fetch (ts.drop bs) bs).2.2) := by
  rw [getPriceDataForDate]
  rw [dif_neg (not_or.mpr ⟨h1, h2⟩)]

/-- The successful and failed lists of the chunked collection are exactly
the ok- and non-ok-classified tickers, in input order. -/
theorem getPriceDataForDate_parts (fetch : String → FetchOutcome) (bs : Nat)
    (hbs : bs ≠ 0) :
    ∀ ts : List String,
      (getPriceDataForDate fetch ts bs).2.1
          = ts.filter (fun t => decide (fetch t = FetchOutcome.ok)) ∧
      (getPriceDataForDate fetch ts bs).2.2
          = ts.filter (fun t => !decide (fetch t = FetchOutcome.ok)) := by
  have key : ∀ n (ts : List String), ts.length ≤ n →
      (getPriceDataForDate fetch ts bs).2.1
          = ts.filter (fun t => decide (fetch t = FetchOutcome.ok)) ∧
      (getPriceDataForDate fetch ts bs).2.2
          = ts.filter (fun t => !decide (fetch t = FetchOutcome.ok)) := by
    intro n
    induction n with
    | zero =>
      intro ts hlen
      have : ts = [] := List.eq_nil_of_length_eq_zero (Nat.le_zero.mp hlen)
      subst this
      rw [getPriceDataForDate_nil]
      exact ⟨rfl, rfl⟩
    | succ n ih =>
      intro ts hlen
      by_cases hts : ts = []
      · subst hts
        rw [getPriceDataForDate_nil]
        exact ⟨rfl, rfl⟩
      · rw [getPriceDataForDate_step fetch ts bs hts hbs]
        have hdrop : (ts.drop bs).length ≤ n := by
          rw [List.length_drop]
          have h1 : 0 < ts.length := List.length_pos.mpr hts
          have h2 : 0 < bs := Nat.pos_of_ne_zero hbs
          omega
        have ihd := ih (ts.drop bs) hdrop
        have hcb := collectBatchPriceData_parts fetch (ts.take bs)
        constructor
        · show (collectBatchPriceData fetch (ts.take bs)).2.1
              ++ (getPriceDataForDate fetch (ts.drop bs) bs).2.1 = _
          rw [hcb.1, ihd.1]
          conv_rhs => rw [← List.take_append_drop bs ts]
          rw [List.filter_append]
        · show (collectBatchPriceData fetch (ts.take bs)).2.2
              ++ (getPriceDataForDate fetch (ts.drop bs) bs).2.2 = _
          rw [hcb.2, ihd.2]
          conv_rhs => rw [← List.take_append_drop bs ts]
          rw [List.filter_append]
  exact fun ts => key ts.length ts (Nat.le_refl _)

theorem isSuccessfulDate_iff (s f : Nat) :
    isSuccessfulDate s f = true ↔
      (9 : ℚ) / 10 ≤ (s : ℚ) / ((s : ℚ) + (f : ℚ)) := by
  unfold isSuccessfulDate successRate
  rcases Nat.eq_zero_or_pos (s + f) with h | h
  · have hs : s = 0 := Nat.eq_zero_of_add_eq_zero_right h
    have hf : f = 0 := by omega
    subst hs; subst hf
    norm_num
  · rw [if_pos h, decide_eq_true_iff]

/-- C6: `run_full_backfill` with Bronze and Silver succeeding and Gold not
skipped: when the Gold step's boolean outcome is `False` the run returns
`False` (the claim says it should still be success), and flipping only the
gold outcome flips the overall result — so the overall result *does* depend
on the Gold step's boolean, contradicting the spec's tolerance of Gold
failures (`return bronze_success and silver_success and gold_success`). -/
theorem c6_gold_failure_fails_run :
    runFullBackfill true true true false false true true = false ∧
    runFullBackfill true true true true false true true = true := by
  decide

/-- C7: with at least one requested ticker and a positive batch size, the
per-date collection is reported successful exactly when
`successful / (successful + failed) >= 0.9`; in particular a 91-of-100
split is successful and an 89-of-100 split is not. -/
theorem c7_success_threshold :
    (∀ (fetch : String → FetchOutcome) (tickers : List String) (bs : Nat),
      tickers ≠ [] → 0 < bs →
      (runPointInTimeCollection fetch tickers bs = true ↔
        (9 : ℚ) / 10 ≤ ((getPriceDataForDate fetch tickers bs).2.1.length : ℚ) /
          (((getPriceDataForDate fetch tickers bs).2.1.length : ℚ)
            + ((getPriceDataForDate fetch tickers bs).2.2.length : ℚ)))) ∧
    isSuccessfulDate 91 9 = true ∧ isSuccessfulDate 89 11 = false := by
  refine ⟨?_, ?_, ?_⟩
  · intro fetch tickers bs hne hbs
    unfold runPointInTimeCollection
    have hemp : tickers.isEmpty = false := by
      cases tickers with
      | nil => exact absurd rfl hne
      | cons a l => rfl
    rw [hemp]
    simp only [Bool.false_eq_true, if_false]
    exact isSuccessfulDate_iff _ _
  · exact (isSuccessfulDate_iff 91 9).mpr (by norm_num)
  · rw [Bool.eq_false_iff]
    intro hb
    have h910 := (isSuccessfulDate_iff 89 11).mp hb
    norm_num at h910

/-- C7 (witness): a single always-succeeding ticker with the default batch
size 50. -/
theorem c7_success_threshold_witness :
    runPointInTimeCollection fetchAllOk ["A"] 50 = true ↔
      (9 : ℚ) / 10 ≤ ((getPriceDataForDate fetchAllOk ["A"] 50).2.1.length : ℚ) /
        (((getPriceDataForDate fetchAllOk ["A"] 50).2.1.length : ℚ)
          + ((getPriceDataForDate fetchAllOk ["A"] 50).2.2.length : ℚ)) :=
  c7_success_threshold.1 fetchAllOk ["A"] 50 (by decide) (by decide)

/-- C10: for every ticker list and positive batch size, the per-date price
collection classifies each input ticker exactly once: the successful and
failed lists are disjoint, their concatenation is a permutation of the
input, and their lengths sum to the number of requested tickers. -/
theorem c10_collection_partition (fetch : String → FetchOutcome)
    (tickers : List String) (bs : Nat) (hbs : 0 < bs) :
    (∀ t, t ∈ (getPriceDataForDate fetch tickers bs).2.1 →
      t ∉ (getPriceDataForDate fetch tickers bs).2.2) ∧
    List.Perm ((getPriceDataForDate fetch tickers bs).2.1
      ++ (getPriceDataForDate fetch tickers bs).2.2) tickers ∧
    (getPriceDataForDate fetch tickers bs).2.1.length
      + (getPriceDataForDate fetch tickers bs).2.2.length = tickers.length := by
  have hparts := getPriceDataForDate_parts fetch bs (Nat.pos_iff_ne_zero.mp hbs) tickers
  have hperm : List.Perm ((getPriceDataForDate fetch tickers bs).2.1
      ++ (getPriceDataForDate fetch tickers bs).2.2) tickers := by
    rw [hparts.1, hparts.2]
    exact List.filter_append_perm _ tickers
  refine ⟨?_, hperm, ?_⟩
  · intro t hs hf
    rw [hparts.1] at hs
    rw [hparts.2] at hf
    have h1 := (List.mem_filter.mp hs).2
    have h2 := (List.mem_filter.mp hf).2
    rw [h1] at h2
    exact absurd h2 (by simp)
  · have := hperm.length_eq
    rw [List.length_append] at this
    exact this

/-- C10 (witness): two tickers, one succeeding and one failing, batch
size 1. -/
theorem c10_collection_partition_witness :
    (∀ t, t ∈ (getPriceDataForDate fetchOnlyA ["A", "B"] 1).2.1 →
      t ∉ (getPriceDataForDate fetchOnlyA ["A", "B"] 1).2.2) ∧
    List.Perm ((getPriceDataForDate fetchOnlyA ["A", "B"] 1).2.1
      ++ (getPriceDataForDate fetchOnlyA ["A", "B"] 1).2.2) ["A", "B"] ∧
    (getPriceDataForDate fetchOnlyA ["A", "B"] 1).2.1.length
      + (getPriceDataForDate fetchOnlyA ["A", "B"] 1).2.2.length
        = (["A", "B"] : List String).length :=
  c10_collection_partition fetchOnlyA ["A", "B"] 1 (by decide)
